import Mathlib

/-!
Shallow embedding of the account-provisioning bootstrap of
`src/utils/psql_testdata.py` (anselus/anselusd): the identity-material
generator (`generate_account`, `generate_unid`), the persistence writer
(`add_account_to_db`), the schema resetter (`reset_database`) and the
operator dump (`dump_account`), together with models of the library
primitives they call (PyNaCl secret box, Argon2id KDF, `uuid.uuid4`,
`base64.b85encode`) and of the psycopg2 connection/transaction discipline.

Randomness is made explicit: every random primitive the Python code draws
from (`uuid4`, `secrets.choice`, `nacl.utils.random`,
`nacl.public.PrivateKey.generate`, `secrets.SystemRandom`) becomes a
stream in a `RandSrc` record, indexed in the order the source draws from it.
-/

/-- Byte strings are lists of naturals; every byte is reduced mod 256 where
it is produced. -/
abbrev Bytes := List Nat

/-- Code points of a string, standing for Python `bytes(s, 'utf8')`.  The
exact UTF-8 byte layout is not load-bearing for any claim; what is kept is
that the encoding is a deterministic injection from strings to byte
strings. -/
def strBytes (s : String) : Bytes := s.data.map Char.toNat

/-- `nacl.secret.SecretBox.KEY_SIZE`: 32 bytes. -/
def secretbox_KEY_SIZE : Nat := 32

/-- `nacl.pwhash.argon2id.SALTBYTES`: 16 bytes. -/
def argon2id_SALTBYTES : Nat := 16

/-- `nacl.pwhash.argon2id.OPSLIMIT_INTERACTIVE`. -/
def argon2id_OPSLIMIT_INTERACTIVE : Nat := 2

/-- `nacl.pwhash.argon2id.MEMLIMIT_INTERACTIVE` (64 MiB). -/
def argon2id_MEMLIMIT_INTERACTIVE : Nat := 67108864

/-- `nacl.utils.random(n)` draws `n` fresh random bytes; the byte stream is
supplied explicitly. -/
def naclRandomBytes (n : Nat) (stream : Nat → Nat) : Bytes :=
  (List.range n).map (fun i => stream i % 256)

/-- Modelled from the spec: `nacl.pwhash.argon2id.kdf` (library primitive,
not part of this repository).  The memory-hard Argon2id mixing itself is
not reproduced; what the spec relies on is kept faithfully: a deterministic
function of (output size, password bytes, salt, opslimit, memlimit) whose
output has exactly the requested size. -/
def argon2id_kdf (size : Nat) (password salt : Bytes) (ops mem : Nat) : Bytes :=
  (List.range size).map (fun i =>
    (password.foldl (fun a b => a * 31 + b) 7 +
     salt.foldl (fun a b => a * 131 + b) 11 + ops * 17 + mem * 19 + i) % 256)

/-- The alphabet of Python `base64.b85encode` (RFC 1924 order): digits,
upper-case letters, lower-case letters, then 23 symbols. -/
def b85chars : List Char :=
  (List.range 10).map (fun i => Char.ofNat (48 + i)) ++
  (List.range 26).map (fun i => Char.ofNat (65 + i)) ++
  (List.range 26).map (fun i => Char.ofNat (97 + i)) ++
  ([33, 35, 36, 37, 38, 40, 41, 42, 43, 45, 59, 60, 61, 62, 63, 64,
    94, 95, 96, 123, 124, 125, 126].map Char.ofNat)

/-- Encode one group of at most four bytes as base-85 digits: the group is
zero-padded to a 32-bit big-endian word, written as five base-85 digits
(most significant first), and the output is truncated to
`group length + 1` characters, exactly as `base64.b85encode` does for a
trailing partial group. -/
def b85group (g : Bytes) : List Char :=
  let p := g ++ List.replicate (4 - g.length) 0
  let w := p.foldl (fun acc b => acc * 256 + b % 256) 0
  (([w / 52200625, w / 614125, w / 7225, w / 85, w].map (fun d => d % 85)).map
    (fun d => b85chars.getD d ' ')).take (g.length + 1)

/-- Split a byte string into groups of four (a shorter trailing group
stays as is). -/
def chunks4 : Bytes → List Bytes
  | [] => []
  | [a] => [[a]]
  | [a, b] => [[a, b]]
  | [a, b, c] => [[a, b, c]]
  | a :: b :: c :: d :: rest => [a, b, c, d] :: chunks4 rest

/-- Python `base64.b85encode`, as a string. -/
def b85encode (bs : Bytes) : String :=
  String.mk ((chunks4 bs).map b85group).flatten

/-- The sixteen lower-case hexadecimal digit characters, `0123456789abcdef`. -/
def hexChars : List Char :=
  (List.range 10).map (fun i => Char.ofNat (48 + i)) ++
  (List.range 6).map (fun i => Char.ofNat (97 + i))

/-- The hexadecimal digit character of `n % 16`. -/
def hexChar (n : Nat) : Char := hexChars.getD (n % 16) '0'

/-- The two hexadecimal characters of one byte. -/
def byteHexChars (b : Nat) : List Char := [hexChar (b / 16), hexChar b]

/-- Byte `i` of the version-4 UUID built from 16 random bytes: byte 6 keeps
its low nibble and gets high nibble 4 (the version), byte 8 keeps its low
six bits and gets top bits 10 (the variant), all other bytes pass through
(reduced mod 256).  This is what `uuid.UUID(bytes=..., version=4)` does. -/
def uuid4Byte (bs : Bytes) (i : Nat) : Nat :=
  let g := bs.getD i 0 % 256
  if i = 6 then g % 16 + 64 else if i = 8 then g % 64 + 128 else g

/-- The character list of `str(uuid.uuid4())` built from 16 random bytes:
lower-case hex in the canonical 8-4-4-4-12 grouping. -/
def uuid4chars (bs : Bytes) : List Char :=
  byteHexChars (uuid4Byte bs 0) ++ byteHexChars (uuid4Byte bs 1) ++
  byteHexChars (uuid4Byte bs 2) ++ byteHexChars (uuid4Byte bs 3) ++ ['-'] ++
  byteHexChars (uuid4Byte bs 4) ++ byteHexChars (uuid4Byte bs 5) ++ ['-'] ++
  byteHexChars (uuid4Byte bs 6) ++ byteHexChars (uuid4Byte bs 7) ++ ['-'] ++
  byteHexChars (uuid4Byte bs 8) ++ byteHexChars (uuid4Byte bs 9) ++ ['-'] ++
  byteHexChars (uuid4Byte bs 10) ++ byteHexChars (uuid4Byte bs 11) ++
  byteHexChars (uuid4Byte bs 12) ++ byteHexChars (uuid4Byte bs 13) ++
  byteHexChars (uuid4Byte bs 14) ++ byteHexChars (uuid4Byte bs 15)

/-- `str(uuid.uuid4())` from 16 fresh random bytes. -/
def uuid4 (bs : Bytes) : String := String.mk (uuid4chars bs)

/-- True exactly for a lower-case hexadecimal digit character. -/
def isHexChar (c : Char) : Bool := hexChars.contains c

/-- Syntactic UUID-form check: 36 characters, dashes at positions
8, 13, 18 and 23, hexadecimal digits everywhere else. -/
def validUuid (s : String) : Bool :=
  match s.data with
  | a0 :: a1 :: a2 :: a3 :: a4 :: a5 :: a6 :: a7 :: d0 ::
    b0 :: b1 :: b2 :: b3 :: d1 ::
    c0 :: c1 :: c2 :: c3 :: d2 ::
    e0 :: e1 :: e2 :: e3 :: d3 ::
    f0 :: f1 :: f2 :: f3 :: f4 :: f5 :: f6 :: f7 :: f8 :: f9 :: f10 :: f11 :: [] =>
      d0 = '-' && d1 = '-' && d2 = '-' && d3 = '-' &&
      [a0, a1, a2, a3, a4, a5, a6, a7, b0, b1, b2, b3, c0, c1, c2, c3,
       e0, e1, e2, e3, f0, f1, f2, f3, f4, f5, f6, f7, f8, f9, f10, f11].all
        isHexChar
  | _ => false

/-- The fixed inclusive Unicode code-point ranges of `generate_unid`
(`include_ranges` in the source), in source order. -/
def include_ranges : List (Nat × Nat) :=
  [ (0x0021, 0x007E), (0x00A1, 0x00AC), (0x00AE, 0x00FF), (0x0100, 0x017F),
    (0x0180, 0x024F), (0x0250, 0x02AF), (0x0370, 0x0377), (0x037A, 0x037E),
    (0x0384, 0x038A), (0x038C, 0x038C), (0x038E, 0x03FF), (0x0400, 0x04FF),
    (0x0500, 0x052F), (0x0600, 0x06FF), (0x0750, 0x077F), (0x16A0, 0x16F0),
    (0x1E00, 0x1EFF), (0x2600, 0x26FF), (0x2700, 0x27BF), (0x2C60, 0x2C7F),
    (0xA720, 0xA7AD) ]

/-- The flattened alphabet of `generate_unid` (`charlist` in the source):
every code point of every inclusive range, in source order. -/
def charlist : List Char :=
  (include_ranges.map (fun p =>
    (List.range (p.2 + 1 - p.1)).map (fun i => Char.ofNat (p.1 + i)))).flatten

/-- `generate_unid(length)`: lengths below 50 are raised to 50, then each
character is drawn from `charlist` by `secrets.choice`; the selector's
successive index choices are supplied explicitly as `sel`. -/
def generate_unid (sel : Nat → Nat) (length : Nat) : String :=
  let len := if length < 50 then 50 else length
  String.mk ((List.range len).map (fun i => charlist.getD (sel i) ' '))

/-- One entry of the source's `account['keys']` list / a device key dict:
either an `ed25519` (Curve25519) keypair dict or an `aes256` symmetric-key
dict, with the key material both raw and base-85 encoded. -/
inductive KeyRec where
  | asym (ktype purpose kid : String) (public_key private_key : Bytes)
         (public_b85 private_b85 : String)
  | sym (ktype purpose kid : String) (key : Bytes) (key_b85 : String)
deriving DecidableEq

/-- The `'id'` field of a key dict. -/
def KeyRec.id : KeyRec → String
  | .asym _ _ i _ _ _ _ => i
  | .sym _ _ i _ _ => i

/-- The `'purpose'` field of a key dict. -/
def KeyRec.purpose : KeyRec → String
  | .asym _ p _ _ _ _ _ => p
  | .sym _ p _ _ _ => p

/-- The raw `'key'` field of a symmetric-key dict (asymmetric dicts have no
such field; the empty byte string stands for the absent entry). -/
def KeyRec.rawKey : KeyRec → Bytes
  | .asym _ _ _ _ _ _ _ => []
  | .sym _ _ _ k _ => k

/-- The `'public_b85'` field of a keypair dict. -/
def KeyRec.public_b85 : KeyRec → String
  | .asym _ _ _ _ _ p _ => p
  | .sym _ _ _ _ _ => ""

/-- The `'private_b85'` field of a keypair dict. -/
def KeyRec.private_b85 : KeyRec → String
  | .asym _ _ _ _ _ _ p => p
  | .sym _ _ _ _ _ => ""

/-- The `'key_b85'` field of a symmetric-key dict. -/
def KeyRec.key_b85 : KeyRec → String
  | .asym _ _ _ _ _ _ _ => ""
  | .sym _ _ _ _ k => k

/-- Default key record (used only to make list indexing total). -/
def defaultKeyRec : KeyRec := .sym "" "" "" [] ""

instance : Inhabited KeyRec := ⟨defaultKeyRec⟩

/-- One entry of `account['devices']`. -/
structure Device where
  id : String
  key : KeyRec
deriving DecidableEq

/-- The in-memory account record assembled by `generate_account`. -/
structure Account where
  wid : String
  friendly_address : String
  password : String
  pwsalt : Bytes
  pwsalt_b85 : String
  pwhash : Bytes
  pwhash_b85 : String
  status : String
  keys : List KeyRec
  folder_map : List (String × String)
  devices : List Device
deriving DecidableEq

/-- The `first_names` pool of `generate_account`. -/
def first_names : List String :=
  ["Leanne", "Lauryn", "Cheryl", "Addie", "Lynnette", "Meredith", "Jay",
   "Bernie", "Kenneth", "Harding", "Elissa", "Beth", "Vance", "Holden",
   "Careen", "Jackie", "Laurence", "Grover", "Megan", "Daniel", "Shelby",
   "Desmond", "Jason", "Patton", "Harvey", "Dylan", "Eleanor", "Grace",
   "Randall", "Carmen", "Lewis"]

/-- The `last_names` pool of `generate_account`. -/
def last_names : List String :=
  ["Rennoll", "Layton", "Page", "Steffen", "Wilbur", "Clifford", "Ridge",
   "Norton", "Haden", "Smith", "Harris", "Bush", "Addison", "Warren",
   "Armstrong", "Radcliff", "Stern", "Jernigan", "Tucker", "Blackwood",
   "Gray", "Eaton", "Bissette", "Albert", "Rogers", "Tyrrell", "Randall",
   "Ramsey", "Parish", "Towner", "Granville"]

/-- Explicit random source for one run of `generate_account`.  Each field
is one of the random primitives the Python code draws from; stream indices
follow the order of the draws in the source.
  - `uuidBytes k`: the 16 random bytes behind the `k`-th `uuid.uuid4()`
    call (0 = workspace id, 1-7 = the seven folder ids, 8+ = device ids);
  - `faRoll`, `statusRoll`, `devRoll`: the `secrets.SystemRandom` integer
    draws behind `randint(1,100)` (twice) and `randrange(1,6)`;
  - `firstNameIdx`, `lastNameIdx`: the `rgen.choice` index draws;
  - `password`: the passphrase returned by the external diceware
    collaborator (`generate_password`);
  - `saltBytes`: the byte stream behind `nacl.utils.random(SALTBYTES)`;
  - `keypairs k`: the (private, public) byte strings of the `k`-th
    `nacl.public.PrivateKey.generate()` call (0 = identity,
    1 = contact_request, 2 = firstdevice, 3+ = device keys); the Curve25519
    scalar-multiplication relating the two halves is a library primitive
    and is not reproduced;
  - `symBytes k`: the byte stream behind the `k`-th
    `nacl.utils.random(KEY_SIZE)` call (0 = broadcast, 1 = system,
    2 = folder);
  - `unidSel k`: the `secrets.choice` index stream of the `k`-th
    `generate_unid` call (0-5 = the six account keys, 6+ = device keys). -/
structure RandSrc where
  uuidBytes : Nat → Bytes
  faRoll : Nat
  firstNameIdx : Nat
  lastNameIdx : Nat
  password : String
  saltBytes : Nat → Nat
  statusRoll : Nat
  keypairs : Nat → Bytes × Bytes
  symBytes : Nat → Nat → Nat
  unidSel : Nat → Nat → Nat
  devRoll : Nat

/-- `rgen.randint(1, 100)` from one raw draw. -/
def randint1_100 (roll : Nat) : Nat := 1 + roll % 100

/-- `rgen.randrange(1, 6)` from one raw draw. -/
def randrange1_6 (roll : Nat) : Nat := 1 + roll % 5

/-- `generate_account()`: assembles one complete in-memory account from the
explicit random source, mirroring the source statement by statement. -/
def generate_account (r : RandSrc) : Account :=
  let wid := uuid4 (r.uuidBytes 0)
  let friendly_address :=
    if randint1_100 r.faRoll < 51 then
      String.join [first_names.getD (r.firstNameIdx % first_names.length) "",
        " ", last_names.getD (r.lastNameIdx % last_names.length) "",
        "/example.com"]
    else ""
  let password := r.password
  let salt := naclRandomBytes argon2id_SALTBYTES r.saltBytes
  let pwhash := argon2id_kdf secretbox_KEY_SIZE (strBytes password) salt
    argon2id_OPSLIMIT_INTERACTIVE argon2id_MEMLIMIT_INTERACTIVE
  let status := if randint1_100 r.statusRoll < 76 then "active" else "disabled"
  let identity := r.keypairs 0
  let contact_request := r.keypairs 1
  let firstdevice := r.keypairs 2
  let broadcast_aes := naclRandomBytes secretbox_KEY_SIZE (r.symBytes 0)
  let system_aes := naclRandomBytes secretbox_KEY_SIZE (r.symBytes 1)
  let folder_aes := naclRandomBytes secretbox_KEY_SIZE (r.symBytes 2)
  { wid := wid
    friendly_address := friendly_address
    password := password
    pwsalt := salt
    pwsalt_b85 := b85encode salt
    pwhash := pwhash
    pwhash_b85 := b85encode pwhash
    status := status
    keys := [
      KeyRec.asym "ed25519" "identity" (generate_unid (r.unidSel 0) 50)
        identity.2 identity.1 (b85encode identity.2) (b85encode identity.1),
      KeyRec.asym "ed25519" "contact_request" (generate_unid (r.unidSel 1) 50)
        contact_request.2 contact_request.1
        (b85encode contact_request.2) (b85encode contact_request.1),
      KeyRec.asym "ed25519" "firstdevice" (generate_unid (r.unidSel 2) 50)
        firstdevice.2 firstdevice.1
        (b85encode firstdevice.2) (b85encode firstdevice.1),
      KeyRec.sym "aes256" "broadcast" (generate_unid (r.unidSel 3) 50)
        broadcast_aes (b85encode broadcast_aes),
      KeyRec.sym "aes256" "system" (generate_unid (r.unidSel 4) 50)
        system_aes (b85encode system_aes),
      KeyRec.sym "aes256" "folder" (generate_unid (r.unidSel 5) 50)
        folder_aes (b85encode folder_aes) ]
    folder_map := [
      ("Messages", uuid4 (r.uuidBytes 1)),
      ("Contacts", uuid4 (r.uuidBytes 2)),
      ("Calendar", uuid4 (r.uuidBytes 3)),
      ("Tasks", uuid4 (r.uuidBytes 4)),
      ("Files", uuid4 (r.uuidBytes 5)),
      ("Files Attachments", uuid4 (r.uuidBytes 6)),
      ("Social", uuid4 (r.uuidBytes 7)) ]
    devices := (List.range (randrange1_6 r.devRoll)).map (fun i =>
      { id := uuid4 (r.uuidBytes (8 + i))
        key := KeyRec.asym "ed25519" "identity"
          (generate_unid (r.unidSel (6 + i)) 50)
          (r.keypairs (3 + i)).2 (r.keypairs (3 + i)).1
          (b85encode (r.keypairs (3 + i)).2)
          (b85encode (r.keypairs (3 + i)).1) }) }

/-- Modelled from the spec: `nacl.secret.SecretBox` authenticated
encryption (XSalsa20-Poly1305; library primitive, not part of this
repository), as an ideal authenticated-encryption functionality: a
ciphertext is an opaque record of the nonce, the key it was produced
under and the payload; its byte rendering is opaque at this layer.
Decryption checks the key (the Poly1305 authentication) and yields the
payload only under the encrypting key. -/
structure SBCiphertext where
  nonce : Bytes
  key : Bytes
  msg : Bytes
deriving DecidableEq

/-- `SecretBox(key).encrypt(msg)` with an explicitly supplied fresh
nonce. -/
def secretbox_encrypt (key nonce msg : Bytes) : SBCiphertext :=
  { nonce := nonce, key := key, msg := msg }

/-- `SecretBox(key).decrypt(c)`: authenticates and returns the payload, or
fails (`nacl.exceptions.CryptoError`) when the key does not match. -/
def secretbox_decrypt (key : Bytes) (c : SBCiphertext) : Option Bytes :=
  if c.key = key then some c.msg else none

/-- Decode the byte string of code points back to a string (inverse of
`strBytes`). -/
def bytesToStr (bs : Bytes) : String := String.mk (bs.map Char.ofNat)

/-- One row of `iwkspc_main`, in the column order of the INSERT
(`wid, friendly_address, password, status`); the SERIAL `id` column is
assigned by the database and not modeled. -/
structure MainRow where
  wid : String
  friendly_address : String
  password : String
  status : String
deriving DecidableEq

/-- One row of `iwkspc_folders`, in the column order of the INSERT
(`wid, fid, enc_name, enc_key`).  `enc_name` is stored by the source as
base-85 text of the secret-box ciphertext; the ciphertext is kept symbolic
here. -/
structure FolderRow where
  wid : String
  fid : String
  enc_name : SBCiphertext
  enc_key : String
deriving DecidableEq

/-- One row of `iwkspc_sessions`, in the column order of the INSERT
(`wid, devid, device_key`). -/
structure SessionRow where
  wid : String
  devid : String
  device_key : String
deriving DecidableEq

/-- One INSERT statement issued by `add_account_to_db`. -/
inductive Stmt where
  | insertMain : MainRow → Stmt
  | insertFolder : FolderRow → Stmt
  | insertSession : SessionRow → Stmt
deriving DecidableEq

/-- The visible contents of the three tables. -/
structure DBState where
  main : List MainRow
  folders : List FolderRow
  sessions : List SessionRow
deriving DecidableEq

/-- Append the row of one INSERT statement. -/
def applyStmt (db : DBState) : Stmt → DBState
  | .insertMain row => { db with main := db.main ++ [row] }
  | .insertFolder row => { db with folders := db.folders ++ [row] }
  | .insertSession row => { db with sessions := db.sessions ++ [row] }

/-- Apply a list of INSERT statements in order. -/
def applyStmts (db : DBState) (ss : List Stmt) : DBState :=
  ss.foldl applyStmt db

/-- A psycopg2 connection: the state committed and visible to other
readers, the pending state of the open transaction, and whether the open
transaction has been aborted by a failed statement. -/
structure Conn where
  committed : DBState
  pending : DBState
  aborted : Bool
deriving DecidableEq

/-- `cursor.execute` of one INSERT under psycopg2 transaction semantics:
inside an aborted transaction every statement raises
`InFailedSqlTransaction`; a failing statement (the failure oracle `fails`
models a constraint violation reported by the database) raises and aborts
the transaction; otherwise the row is added to the pending state only.
The second component is the raised exception, if any. -/
def executeStmt (fails : Stmt → Bool) (c : Conn) (s : Stmt) :
    Conn × Option String :=
  if c.aborted then (c, some "InFailedSqlTransaction")
  else if fails s then ({ c with aborted := true }, some "IntegrityError")
  else ({ c with pending := applyStmt c.pending s }, none)

/-- Execute statements in order; a raised exception propagates (the Python
code installs no handler), so the remaining statements are not executed. -/
def runStmts (fails : Stmt → Bool) : Conn → List Stmt → Conn × Option String
  | c, [] => (c, none)
  | c, s :: rest =>
    match executeStmt fails c s with
    | (c', none) => runStmts fails c' rest
    | (c', some e) => (c', some e)

/-- `dbconn.commit()`: publishes the pending state; committing an aborted
transaction rolls it back instead (PostgreSQL semantics). -/
def commitConn (c : Conn) : Conn :=
  if c.aborted then { c with pending := c.committed, aborted := false }
  else { c with committed := c.pending }

/-- The `iwkspc_main` row built by `add_account_to_db` (the
`friendly_address` branch inserts `account['friendly_address']` when it
is non-empty and the literal empty string otherwise — the same value
either way; the password column receives `pwhash_b85`). -/
def mainRow (a : Account) : MainRow :=
  { wid := a.wid, friendly_address := a.friendly_address,
    password := a.pwhash_b85, status := a.status }

/-- The `iwkspc_folders` rows built by the folder loop of
`add_account_to_db`: one row per `folder_map` item in order, each
encrypting the folder label under `box = SecretBox(account['keys'][5]['key'])`
with a fresh nonce (the `i`-th draw of the nonce stream) and storing
`account['keys'][5]['id']` in `enc_key`. -/
def folderRows (key : KeyRec) (wid : String) (nonces : Nat → Bytes) :
    List (String × String) → Nat → List FolderRow
  | [], _ => []
  | p :: rest, i =>
    { wid := wid, fid := p.2,
      enc_name := secretbox_encrypt key.rawKey (nonces i) (strBytes p.1),
      enc_key := key.id } :: folderRows key wid nonces rest (i + 1)

/-- The `iwkspc_sessions` rows built by the device loop of
`add_account_to_db`: one row per device, carrying the device's public key
in base-85. -/
def sessionRows (a : Account) : List SessionRow :=
  a.devices.map (fun d =>
    { wid := a.wid, devid := d.id, device_key := d.key.public_b85 })

/-- The INSERT statements `add_account_to_db` issues for one account, in
source order: the main row, then the folder rows, then the session rows. -/
def accountStmts (nonces : Nat → Bytes) (a : Account) : List Stmt :=
  Stmt.insertMain (mainRow a) ::
    ((folderRows (a.keys.getD 5 defaultKeyRec) a.wid nonces a.folder_map 0).map
      Stmt.insertFolder ++
     (sessionRows a).map Stmt.insertSession)

/-- `add_account_to_db(account, dbconn)`: executes the INSERTs in order and
commits only if none raised; a raised exception propagates to the caller
before `commit` is reached. -/
def add_account_to_db (fails : Stmt → Bool) (nonces : Nat → Bytes)
    (a : Account) (c : Conn) : Conn × Option String :=
  match runStmts fails c (accountStmts nonces a) with
  | (c', none) => (commitConn c', none)
  | (c', some e) => (c', some e)

/-- One table of the schema, as `reset_database` sees it: a name, the
declared columns, and the stored rows (opaque here). -/
structure Table where
  name : String
  cols : List String
  rows : List (List String)
deriving DecidableEq

/-- The current schema: its tables, in creation order. -/
structure Database where
  tables : List Table
deriving DecidableEq

/-- The `DO $$ ... DROP TABLE IF EXISTS ... $$` block of `reset_database`:
drops every table of the current schema. -/
def dropAllTables (_ : Database) : Database := { tables := [] }

/-- `CREATE TABLE`: fails if a table of that name already exists, otherwise
appends a fresh empty table. -/
def createTable (db : Database) (name : String) (cols : List String) :
    Except String Database :=
  if db.tables.any (fun t => t.name = name) then
    Except.error (String.append "DuplicateTable: " name)
  else Except.ok { tables := db.tables ++ [{ name := name, cols := cols, rows := [] }] }

/-- `reset_database(dbconn)`: drop every table in the current schema, then
create the three workspace tables with the columns of the source DDL. -/
def reset_database (db : Database) : Except String Database := do
  let db := dropAllTables db
  let db ← createTable db "iwkspc_main"
    ["id", "wid", "friendly_address", "password", "status"]
  let db ← createTable db "iwkspc_folders"
    ["id", "fid", "wid", "enc_name", "enc_key"]
  let db ← createTable db "iwkspc_sessions"
    ["id", "wid", "devid", "device_key"]
  return db

/-- The state `reset_database` leaves behind: exactly the three freshly
created empty tables. -/
def freshDatabase : Database :=
  { tables := [
      { name := "iwkspc_main",
        cols := ["id", "wid", "friendly_address", "password", "status"],
        rows := [] },
      { name := "iwkspc_folders",
        cols := ["id", "fid", "wid", "enc_name", "enc_key"],
        rows := [] },
      { name := "iwkspc_sessions",
        cols := ["id", "wid", "devid", "device_key"],
        rows := [] } ] }

/-- The per-device lines of `dump_account` for device `i` (0-based; the
printed label counts from 1). -/
def deviceDumpRows (a : Account) : List (String × String) :=
  ((List.range a.devices.length).map (fun i =>
    let d := a.devices.getD i { id := "", key := defaultKeyRec }
    [ (String.append (String.append "Device #" (toString (i + 1))) " ID", d.id),
      (String.append (String.append "Device #" (toString (i + 1))) " Public.b85",
        d.key.public_b85),
      (String.append (String.append "Device #" (toString (i + 1))) " Private.b85",
        d.key.private_b85) ])).flatten

/-- `dump_account(account)`: the labeled key/value pairs printed to the
operator's standard output, in print order. -/
def dump_account (a : Account) : List (String × String) :=
  [ ("Workspace ID", a.wid),
    ("Friendly Address", a.friendly_address),
    ("Status", a.status),
    ("Password", a.password),
    ("Password Salt.b85", a.pwsalt_b85),
    ("Password Hash.b85", a.pwhash_b85),
    ("Identity Public.b85", (a.keys.getD 0 defaultKeyRec).public_b85),
    ("Identity Private.b85", (a.keys.getD 0 defaultKeyRec).private_b85),
    ("Contact Public.b85", (a.keys.getD 1 defaultKeyRec).public_b85),
    ("Contact Private.b85", (a.keys.getD 1 defaultKeyRec).private_b85),
    ("First Device Public.b85", (a.keys.getD 2 defaultKeyRec).public_b85),
    ("First Device Private.b85", (a.keys.getD 2 defaultKeyRec).private_b85),
    ("Broadcast.b85", (a.keys.getD 3 defaultKeyRec).key_b85),
    ("System.b85", (a.keys.getD 4 defaultKeyRec).key_b85),
    ("Folder Map.b85", (a.keys.getD 5 defaultKeyRec).key_b85),
    ("Message Folder", (a.folder_map.lookup "Messages").getD ""),
    ("Contacts Folder", (a.folder_map.lookup "Contacts").getD ""),
    ("Calendar Folder", (a.folder_map.lookup "Calendar").getD ""),
    ("Tasks Folder", (a.folder_map.lookup "Tasks").getD ""),
    ("Files Folder", (a.folder_map.lookup "Files").getD ""),
    ("Attachments Folder", (a.folder_map.lookup "Files Attachments").getD ""),
    ("Social Folder", (a.folder_map.lookup "Social").getD "") ]
  ++ deviceDumpRows a

/-- The main rows among a statement list. -/
def stmtMainRows (ss : List Stmt) : List MainRow :=
  ss.filterMap (fun s => match s with
    | .insertMain row => some row
    | _ => none)

/-- The folder rows among a statement list. -/
def stmtFolderRows (ss : List Stmt) : List FolderRow :=
  ss.filterMap (fun s => match s with
    | .insertFolder row => some row
    | _ => none)

/-- The session rows among a statement list. -/
def stmtSessionRows (ss : List Stmt) : List SessionRow :=
  ss.filterMap (fun s => match s with
    | .insertSession row => some row
    | _ => none)

/-- Every string-typed cell one INSERT statement writes (the symbolic
`enc_name` ciphertext of a folder row is not a string cell). -/
def stmtStringCells : Stmt → List String
  | .insertMain row => [row.wid, row.friendly_address, row.password, row.status]
  | .insertFolder row => [row.wid, row.fid, row.enc_key]
  | .insertSession row => [row.wid, row.devid, row.device_key]

/-- Every string-typed cell a statement list writes, in order. -/
def stringCells (ss : List Stmt) : List String :=
  (ss.map stmtStringCells).flatten

/-- Erase the secret halves of a key record (the private key of a keypair,
the raw bytes and base-85 text of a symmetric key), keeping the id, the
purpose, the type and the public half. -/
def KeyRec.scrub : KeyRec → KeyRec
  | .asym t p i pub _ pub85 _ => .asym t p i pub [] pub85 ""
  | .sym t p i _ _ => .sym t p i [] ""

/-- Erase every secret of an account's key records (all six account keys
and every device key). -/
def scrubSecrets (a : Account) : Account :=
  { a with
    keys := a.keys.map KeyRec.scrub
    devices := a.devices.map (fun d => { d with key := d.key.scrub }) }

/-- A concrete random source used to instantiate the theorems below on one
explicit input. -/
def rand0 : RandSrc :=
  { uuidBytes := fun k => List.replicate 16 k
    faRoll := 0
    firstNameIdx := 0
    lastNameIdx := 0
    password := "ExactBisonDanger"
    saltBytes := fun i => i
    statusRoll := 0
    keypairs := fun k => (List.replicate 32 k, List.replicate 32 (k + 100))
    symBytes := fun k _ => k
    unidSel := fun k _ => k
    devRoll := 0 }

/-- A concrete nonce stream for instantiating the persistence theorems. -/
def nonces0 : Nat → Bytes := fun i => List.replicate 24 i

/-- The empty visible database contents. -/
def emptyDB : DBState := { main := [], folders := [], sessions := [] }

/-- A freshly opened connection over an empty database. -/
def conn0 : Conn := { committed := emptyDB, pending := emptyDB, aborted := false }

/-! Helper lemmas. -/

lemma filterMap_const_none {α β : Type} (l : List α) :
    (l.filterMap fun _ => (none : Option β)) = [] := by
  induction l with
  | nil => rfl
  | cons h t ih => simp [ih]

lemma bytesToStr_strBytes (s : String) : bytesToStr (strBytes s) = s := by
  cases s with
  | mk data => simp [bytesToStr, strBytes, List.map_map, Function.comp_def]

lemma stmtMainRows_accountStmts (nonces : Nat → Bytes) (a : Account) :
    stmtMainRows (accountStmts nonces a) = [mainRow a] := by
  simp only [stmtMainRows, accountStmts, List.filterMap_cons, List.filterMap_append,
    List.filterMap_map]
  simp [Function.comp_def, filterMap_const_none]

lemma stmtFolderRows_accountStmts (nonces : Nat → Bytes) (a : Account) :
    stmtFolderRows (accountStmts nonces a) =
      folderRows (a.keys.getD 5 defaultKeyRec) a.wid nonces a.folder_map 0 := by
  simp only [stmtFolderRows, accountStmts, List.filterMap_cons, List.filterMap_append,
    List.filterMap_map]
  simp [Function.comp_def, filterMap_const_none]

lemma stmtSessionRows_accountStmts (nonces : Nat → Bytes) (a : Account) :
    stmtSessionRows (accountStmts nonces a) = sessionRows a := by
  simp only [stmtSessionRows, accountStmts, List.filterMap_cons, List.filterMap_append,
    List.filterMap_map]
  simp [Function.comp_def, filterMap_const_none]

/-! Claim theorems. -/

/-- C9: running the schema resetter twice in a row leaves the database in
the same state both times — exactly the three freshly created empty tables
`iwkspc_main`, `iwkspc_folders`, `iwkspc_sessions` and nothing else — and
the second run completes without error. -/
theorem c9_reset_database_idempotent (db : Database) :
    reset_database db = Except.ok freshDatabase
    ∧ reset_database freshDatabase = Except.ok freshDatabase
    ∧ freshDatabase.tables.map Table.name =
        ["iwkspc_main", "iwkspc_folders", "iwkspc_sessions"]
    ∧ ∀ t ∈ freshDatabase.tables, t.rows = [] := by
  refine ⟨rfl, rfl, rfl, ?_⟩
  intro t ht
  fin_cases ht <;> rfl

/-- C8: for every generated account, the password hash has exactly the
secret-box key size (32 bytes) — and the modeled KDF returns that size for
every choice of cost parameters — while the salt has the Argon2id-mandated
length (16 bytes); the hash is the KDF output over the generated password
and salt at the interactive cost profile. -/
theorem c8_password_hash_sizes (r : RandSrc) :
    (generate_account r).pwhash.length = secretbox_KEY_SIZE
    ∧ (generate_account r).pwsalt.length = argon2id_SALTBYTES
    ∧ (∀ pw salt ops mem,
        (argon2id_kdf secretbox_KEY_SIZE pw salt ops mem).length = secretbox_KEY_SIZE)
    ∧ (generate_account r).pwhash =
        argon2id_kdf secretbox_KEY_SIZE (strBytes (generate_account r).password)
          (generate_account r).pwsalt argon2id_OPSLIMIT_INTERACTIVE
          argon2id_MEMLIMIT_INTERACTIVE := by
  refine ⟨?_, ?_, ?_, rfl⟩ <;>
    simp [generate_account, argon2id_kdf, naclRandomBytes]

/-- C2: encrypting a folder label with the generated account's folder key
and decrypting with the same key reproduces the label exactly; decrypting
the same ciphertext with the broadcast or system key (distinct from the
folder key), or with any other key, fails with an authentication error
rather than succeeding. -/
theorem c2_folder_label_roundtrip (r : RandSrc) (nonce : Bytes) (label : String)
    (hb : ((generate_account r).keys.getD 3 defaultKeyRec).rawKey ≠
          ((generate_account r).keys.getD 5 defaultKeyRec).rawKey)
    (hs : ((generate_account r).keys.getD 4 defaultKeyRec).rawKey ≠
          ((generate_account r).keys.getD 5 defaultKeyRec).rawKey) :
    let a := generate_account r
    let fk := (a.keys.getD 5 defaultKeyRec).rawKey
    let c := secretbox_encrypt fk nonce (strBytes label)
    (secretbox_decrypt fk c).map bytesToStr = some label
    ∧ secretbox_decrypt ((a.keys.getD 3 defaultKeyRec).rawKey) c = none
    ∧ secretbox_decrypt ((a.keys.getD 4 defaultKeyRec).rawKey) c = none
    ∧ ∀ k', k' ≠ fk → secretbox_decrypt k' c = none := by
  intro a fk c
  refine ⟨?_, ?_, ?_, ?_⟩
  · simp [secretbox_decrypt, secretbox_encrypt, c, bytesToStr_strBytes]
  · simp only [secretbox_decrypt, secretbox_encrypt, c]
    rw [if_neg]
    exact fun h => hb h.symm
  · simp only [secretbox_decrypt, secretbox_encrypt, c]
    rw [if_neg]
    exact fun h => hs h.symm
  · intro k' hk
    simp only [secretbox_decrypt, secretbox_encrypt, c]
    rw [if_neg]
    exact fun h => hk h.symm

/-- Witness for C2 at the concrete random source `rand0`. -/
theorem c2_folder_label_roundtrip_witness :
    ((generate_account rand0).keys.getD 3 defaultKeyRec).rawKey ≠
      ((generate_account rand0).keys.getD 5 defaultKeyRec).rawKey
    ∧ (secretbox_decrypt ((generate_account rand0).keys.getD 5 defaultKeyRec).rawKey
        (secretbox_encrypt ((generate_account rand0).keys.getD 5 defaultKeyRec).rawKey
          (nonces0 0) (strBytes "Messages"))).map bytesToStr = some "Messages" :=
  ⟨by decide, (c2_folder_label_roundtrip rand0 (nonces0 0) "Messages"
      (by decide) (by decide)).1⟩

/-- C3: the persistence writer never reads the plaintext password — the
statements it issues are unchanged under replacing the `password` field by
anything — and the workspace row's password column holds exactly the
base-85 rendering of the Argon2id KDF output over the generated password
and salt. -/
theorem c3_password_never_persisted (r : RandSrc) (nonces : Nat → Bytes) :
    (∀ (a : Account) (p' : String),
      accountStmts nonces { a with password := p' } = accountStmts nonces a)
    ∧ stmtMainRows (accountStmts nonces (generate_account r)) =
        [{ wid := (generate_account r).wid
           friendly_address := (generate_account r).friendly_address
           password := b85encode (argon2id_kdf secretbox_KEY_SIZE
             (strBytes (generate_account r).password) (generate_account r).pwsalt
             argon2id_OPSLIMIT_INTERACTIVE argon2id_MEMLIMIT_INTERACTIVE)
           status := (generate_account r).status }] := by
  constructor
  · intro a p'
    rfl
  · rw [stmtMainRows_accountStmts]
    rfl

lemma getD_mem_of_lt {α : Type} {l : List α} {i : Nat} (h : i < l.length) (d : α) :
    l.getD i d ∈ l := by
  rw [List.getD_eq_getElem?_getD, List.getElem?_eq_getElem h]
  simp

lemma charlist_length : charlist.length = 2322 := by
  simp only [charlist, include_ranges, List.length_flatten, List.map_map,
    Function.comp_def, List.length_map, List.length_range]
  decide

/-- C7: for every requested length, `generate_unid` returns a string of at
least 50 characters (exactly `max 50 length`), every character is drawn
from the flattened union of the fixed inclusive code-point ranges by the
supplied selector, and that alphabet has 2322 (≥ 700) candidate
characters.  (That the selector is uniform and cryptographically secure is
the contract of `secrets.choice` itself; the selector is universally
quantified here.) -/
theorem c7_generate_unid_spec (sel : Nat → Nat) (length : Nat)
    (hsel : ∀ i, sel i < charlist.length) :
    50 ≤ (generate_unid sel length).length
    ∧ (generate_unid sel length).length = max 50 length
    ∧ (∀ c ∈ (generate_unid sel length).data, c ∈ charlist)
    ∧ (∀ i < (generate_unid sel length).length,
        (generate_unid sel length).data.getD i ' ' = charlist.getD (sel i) ' ')
    ∧ charlist.length = 2322 ∧ 700 ≤ charlist.length := by
  have hlen : (generate_unid sel length).length =
      (if length < 50 then 50 else length) := by
    simp [generate_unid, String.length]
  refine ⟨?_, ?_, ?_, ?_, charlist_length, by rw [charlist_length]; omega⟩
  · rw [hlen]; split <;> omega
  · rw [hlen]; split <;> omega
  · intro ch hch
    simp only [generate_unid, List.mem_map] at hch
    obtain ⟨i, _, rfl⟩ := hch
    exact getD_mem_of_lt (hsel i) ' '
  · intro i hi
    rw [hlen] at hi
    simp [generate_unid, List.getD_eq_getElem?_getD, List.getElem?_map,
      List.getElem?_range hi]

/-- Witness for C7 with the constant selector 0 and requested length 0. -/
theorem c7_generate_unid_spec_witness :
    (∀ i : Nat, (fun _ : Nat => 0) i < charlist.length)
    ∧ 50 ≤ (generate_unid (fun _ => 0) 0).length :=
  ⟨fun _ => by simp only []; rw [charlist_length]; omega,
   (c7_generate_unid_spec (fun _ => 0) 0
      (fun _ => by simp only []; rw [charlist_length]; omega)).1⟩

lemma isHexChar_hexChar (n : Nat) : isHexChar (hexChar n) = true := by
  have h : n % 16 < 16 := Nat.mod_lt _ (by omega)
  unfold hexChar
  revert h
  generalize n % 16 = m
  intro h
  interval_cases m <;> rfl

lemma uuid4_validUuid (bs : Bytes) : validUuid (uuid4 bs) = true := by
  simp only [uuid4, uuid4chars, byteHexChars, List.cons_append, List.nil_append]
  simp [validUuid, isHexChar_hexChar]

/-- C6: the generated `folder_map` has exactly the seven fixed labels in
source order, every folder identifier has valid UUID form, and — whenever
the underlying `uuid4` draws render distinctly (freshness of the random
source) — the seven identifiers are pairwise distinct. -/
theorem c6_folder_map_seven_distinct (r : RandSrc)
    (hu : ∀ i < 8, ∀ j < 8, i ≠ j →
      uuid4 (r.uuidBytes i) ≠ uuid4 (r.uuidBytes j)) :
    let a := generate_account r
    a.folder_map.map Prod.fst =
      ["Messages", "Contacts", "Calendar", "Tasks", "Files",
       "Files Attachments", "Social"]
    ∧ (∀ p ∈ a.folder_map, validUuid p.2 = true)
    ∧ (a.folder_map.map Prod.snd).Nodup := by
  intro a
  refine ⟨rfl, ?_, ?_⟩
  · intro p hp
    have : a.folder_map.map Prod.snd =
        (List.range 7).map (fun i => uuid4 (r.uuidBytes (1 + i))) := rfl
    have hmem : p.2 ∈ a.folder_map.map Prod.snd := List.mem_map_of_mem Prod.snd hp
    rw [this] at hmem
    simp only [List.mem_map, List.mem_range] at hmem
    obtain ⟨i, _, hpi⟩ := hmem
    rw [← hpi]
    exact uuid4_validUuid _
  · have : a.folder_map.map Prod.snd =
        (List.range 7).map (fun i => uuid4 (r.uuidBytes (1 + i))) := rfl
    rw [this]
    refine List.Nodup.map_on ?_ (List.nodup_range 7)
    intro x hx y hy hxy
    rw [List.mem_range] at hx hy
    by_contra hne
    exact hu (1 + x) (by omega) (1 + y) (by omega) (by omega) hxy

/-- Witness for C6 at the concrete random source `rand0`. -/
theorem c6_folder_map_seven_distinct_witness :
    (∀ i < 8, ∀ j < 8, i ≠ j →
      uuid4 (rand0.uuidBytes i) ≠ uuid4 (rand0.uuidBytes j))
    ∧ ((generate_account rand0).folder_map.map Prod.snd).Nodup :=
  ⟨by decide, (c6_folder_map_seven_distinct rand0 (by decide)).2.2⟩

/-- C5: every generated account has between 1 and 5 devices (never zero),
and — whenever the underlying random draws render distinctly (freshness of
the random source) — the device ids are pairwise distinct and the key-ids
of the six account keys and of every device key are pairwise distinct. -/
theorem c5_device_count_and_unique_ids (r : RandSrc)
    (hu : ∀ i < 13, ∀ j < 13, i ≠ j →
      uuid4 (r.uuidBytes i) ≠ uuid4 (r.uuidBytes j))
    (hk : ∀ i < 11, ∀ j < 11, i ≠ j →
      generate_unid (r.unidSel i) 50 ≠ generate_unid (r.unidSel j) 50) :
    let a := generate_account r
    1 ≤ a.devices.length ∧ a.devices.length ≤ 5
    ∧ (a.devices.map Device.id).Nodup
    ∧ (a.keys.map KeyRec.id ++ a.devices.map (fun d => d.key.id)).Nodup := by
  intro a
  have hmod : r.devRoll % 5 < 5 := Nat.mod_lt _ (by omega)
  have hdev : a.devices = (List.range (randrange1_6 r.devRoll)).map (fun i =>
      ({ id := uuid4 (r.uuidBytes (8 + i)),
         key := KeyRec.asym "ed25519" "identity"
           (generate_unid (r.unidSel (6 + i)) 50)
           (r.keypairs (3 + i)).2 (r.keypairs (3 + i)).1
           (b85encode (r.keypairs (3 + i)).2)
           (b85encode (r.keypairs (3 + i)).1) } : Device)) := rfl
  have hlen : a.devices.length = randrange1_6 r.devRoll := by
    rw [hdev]; simp
  have hn5 : randrange1_6 r.devRoll ≤ 5 := by
    unfold randrange1_6; omega
  refine ⟨by rw [hlen]; unfold randrange1_6; omega, by rw [hlen]; exact hn5, ?_, ?_⟩
  · have h1 : a.devices.map Device.id =
        (List.range (randrange1_6 r.devRoll)).map
          (fun i => uuid4 (r.uuidBytes (8 + i))) := by
      rw [hdev, List.map_map]; rfl
    rw [h1]
    refine List.Nodup.map_on ?_ (List.nodup_range _)
    intro x hx y hy hxy
    rw [List.mem_range] at hx hy
    by_contra hne
    exact hu (8 + x) (by omega) (8 + y) (by omega) (by omega) hxy
  · have h2 : a.keys.map KeyRec.id ++ a.devices.map (fun d => d.key.id) =
        (List.range (6 + randrange1_6 r.devRoll)).map
          (fun i => generate_unid (r.unidSel i) 50) := by
      rw [hdev, List.map_map, List.range_add, List.map_append, List.map_map]
      rfl
    rw [h2]
    refine List.Nodup.map_on ?_ (List.nodup_range _)
    intro x hx y hy hxy
    rw [List.mem_range] at hx hy
    by_contra hne
    exact hk x (by omega) y (by omega) hne hxy

/-- Witness for C5 at the concrete random source `rand0`. -/
theorem c5_device_count_and_unique_ids_witness :
    (∀ i < 13, ∀ j < 13, i ≠ j →
      uuid4 (rand0.uuidBytes i) ≠ uuid4 (rand0.uuidBytes j))
    ∧ (∀ i < 11, ∀ j < 11, i ≠ j →
      generate_unid (rand0.unidSel i) 50 ≠ generate_unid (rand0.unidSel j) 50)
    ∧ 1 ≤ (generate_account rand0).devices.length :=
  ⟨by decide, by decide,
   (c5_device_count_and_unique_ids rand0 (by decide) (by decide)).1⟩

lemma folderRows_fields (k : KeyRec) (w : String) (nonces : Nat → Bytes) :
    ∀ (fm : List (String × String)) (i : Nat),
      ∀ row ∈ folderRows k w nonces fm i,
        row.wid = w ∧ row.enc_name.key = k.rawKey ∧ row.enc_key = k.id := by
  intro fm
  induction fm with
  | nil => intro i row hrow; simp [folderRows] at hrow
  | cons p rest ih =>
    intro i row hrow
    rw [folderRows] at hrow
    rcases List.mem_cons.mp hrow with h | h
    · subst h
      exact ⟨rfl, rfl, rfl⟩
    · exact ih (i + 1) row h

lemma folderRows_covers (k : KeyRec) (w : String) (nonces : Nat → Bytes) :
    ∀ (fm : List (String × String)) (i0 : Nat), ∀ p ∈ fm, ∃ i,
      ({ wid := w, fid := p.2,
         enc_name := secretbox_encrypt k.rawKey (nonces i) (strBytes p.1),
         enc_key := k.id } : FolderRow) ∈ folderRows k w nonces fm i0 := by
  intro fm
  induction fm with
  | nil => intro i0 p hp; simp at hp
  | cons q rest ih =>
    intro i0 p hp
    rcases List.mem_cons.mp hp with h | h
    · subst h
      exact ⟨i0, by rw [folderRows]; exact List.mem_cons_self _ _⟩
    · obtain ⟨i, hi⟩ := ih (i0 + 1) p h
      exact ⟨i, by rw [folderRows]; exact List.mem_cons_of_mem _ hi⟩

lemma folderRows_length (k : KeyRec) (w : String) (nonces : Nat → Bytes) :
    ∀ (fm : List (String × String)) (i : Nat),
      (folderRows k w nonces fm i).length = fm.length := by
  intro fm
  induction fm with
  | nil => intro i; rfl
  | cons p rest ih => intro i; rw [folderRows]; simp [ih]

/-- C4: the key at index 5 of the generated key list has purpose "folder";
every folder row the writer produces is encrypted under that key's raw
bytes and stores that key's key-ID in its `enc_key` column, and every one
of the seven `folder_map` entries gives rise to such a row. -/
theorem c4_folder_key_encrypts_all (r : RandSrc) (nonces : Nat → Bytes) :
    let a := generate_account r
    let fk := a.keys.getD 5 defaultKeyRec
    fk.purpose = "folder"
    ∧ (∀ row ∈ stmtFolderRows (accountStmts nonces a),
        row.enc_name.key = fk.rawKey ∧ row.enc_key = fk.id)
    ∧ (∀ p ∈ a.folder_map, ∃ i,
        ({ wid := a.wid, fid := p.2,
           enc_name := secretbox_encrypt fk.rawKey (nonces i) (strBytes p.1),
           enc_key := fk.id } : FolderRow) ∈ stmtFolderRows (accountStmts nonces a))
    ∧ (stmtFolderRows (accountStmts nonces a)).length = 7 := by
  intro a fk
  refine ⟨rfl, ?_, ?_, ?_⟩
  · intro row hrow
    rw [stmtFolderRows_accountStmts] at hrow
    exact (folderRows_fields fk a.wid nonces a.folder_map 0 row hrow).2
  · intro p hp
    obtain ⟨i, hi⟩ := folderRows_covers fk a.wid nonces a.folder_map 0 p hp
    exact ⟨i, by rw [stmtFolderRows_accountStmts]; exact hi⟩
  · rw [stmtFolderRows_accountStmts, folderRows_length]
    rfl

lemma runStmts_committed (fails : Stmt → Bool) :
    ∀ (ss : List Stmt) (c : Conn),
      (runStmts fails c ss).1.committed = c.committed := by
  intro ss
  induction ss with
  | nil => intro c; rfl
  | cons s rest ih =>
    intro c
    by_cases hab : c.aborted
    · simp [runStmts, executeStmt, hab]
    · by_cases hf : fails s
      · simp [runStmts, executeStmt, hab, hf]
      · simp [runStmts, executeStmt, hab, hf, ih]

lemma runStmts_ok (fails : Stmt → Bool) :
    ∀ (ss : List Stmt) (c : Conn), c.aborted = false →
      (runStmts fails c ss).2 = none →
      (runStmts fails c ss).1 =
        { committed := c.committed, pending := applyStmts c.pending ss,
          aborted := false } := by
  intro ss
  induction ss with
  | nil =>
    intro c hab _
    cases c
    simp_all [runStmts, applyStmts]
  | cons s rest ih =>
    intro c hab hnone
    by_cases hf : fails s
    · exfalso
      simp [runStmts, executeStmt, hab, hf] at hnone
    · have hstep : runStmts fails c (s :: rest) =
          runStmts fails { c with pending := applyStmt c.pending s } rest := by
        simp [runStmts, executeStmt, hab, hf]
      rw [hstep] at hnone ⊢
      rw [ih { c with pending := applyStmt c.pending s } hab hnone]
      rfl

lemma applyStmts_cons (db : DBState) (s : Stmt) (ss : List Stmt) :
    applyStmts db (s :: ss) = applyStmts (applyStmt db s) ss := rfl

lemma applyStmts_append (db : DBState) (l1 l2 : List Stmt) :
    applyStmts db (l1 ++ l2) = applyStmts (applyStmts db l1) l2 :=
  List.foldl_append _ _ _ _

lemma applyStmts_mapFolder :
    ∀ (rs : List FolderRow) (db : DBState),
      applyStmts db (rs.map Stmt.insertFolder) =
        { db with folders := db.folders ++ rs } := by
  intro rs
  induction rs with
  | nil => intro db; cases db; simp [applyStmts]
  | cons rrow rest ih =>
    intro db
    rw [List.map_cons, applyStmts_cons, ih]
    simp [applyStmt]

lemma applyStmts_mapSession :
    ∀ (rs : List SessionRow) (db : DBState),
      applyStmts db (rs.map Stmt.insertSession) =
        { db with sessions := db.sessions ++ rs } := by
  intro rs
  induction rs with
  | nil => intro db; cases db; simp [applyStmts]
  | cons rrow rest ih =>
    intro db
    rw [List.map_cons, applyStmts_cons, ih]
    simp [applyStmt]

lemma applyStmts_accountStmts (nonces : Nat → Bytes) (a : Account) (db : DBState) :
    applyStmts db (accountStmts nonces a) =
      { main := db.main ++ [mainRow a],
        folders := db.folders ++
          folderRows (a.keys.getD 5 defaultKeyRec) a.wid nonces a.folder_map 0,
        sessions := db.sessions ++ sessionRows a } := by
  rw [accountStmts, applyStmts_cons, applyStmts_append, applyStmts_mapFolder,
    applyStmts_mapSession]
  rfl

/-- C1: the persistence writer is atomic per account: when no statement
fails, the committed state gains exactly the account's main row, its 7
folder rows and its 1-5 session rows; when any statement fails, the error
is surfaced as a raised exception and the committed (reader-visible) state
is unchanged — no partial account remains visible. -/
theorem c1_add_account_atomic (r : RandSrc) (fails : Stmt → Bool)
    (nonces : Nat → Bytes) (c : Conn)
    (hp : c.pending = c.committed) (hab : c.aborted = false) :
    let a := generate_account r
    ((add_account_to_db fails nonces a c).2 = none →
      (add_account_to_db fails nonces a c).1.committed =
        applyStmts c.committed (accountStmts nonces a))
    ∧ (∀ e, (add_account_to_db fails nonces a c).2 = some e →
        (add_account_to_db fails nonces a c).1.committed = c.committed)
    ∧ applyStmts c.committed (accountStmts nonces a) =
        { main := c.committed.main ++ [mainRow a],
          folders := c.committed.folders ++
            folderRows (a.keys.getD 5 defaultKeyRec) a.wid nonces a.folder_map 0,
          sessions := c.committed.sessions ++ sessionRows a }
    ∧ (folderRows (a.keys.getD 5 defaultKeyRec) a.wid nonces a.folder_map 0).length = 7
    ∧ 1 ≤ (sessionRows a).length ∧ (sessionRows a).length ≤ 5 := by
  intro a
  have hsess : (sessionRows a).length = randrange1_6 r.devRoll := by
    simp [sessionRows, a, generate_account]
  refine ⟨?_, ?_, applyStmts_accountStmts nonces a c.committed, ?_, ?_, ?_⟩
  · intro hnone
    rcases hrun : runStmts fails c (accountStmts nonces a) with ⟨c', e⟩
    cases e with
    | none =>
      have h2 := runStmts_ok fails (accountStmts nonces a) c hab (by rw [hrun])
      rw [hrun] at h2
      simp only at h2
      simp only [add_account_to_db, hrun]
      rw [h2]
      simp [commitConn, hp]
    | some err =>
      exfalso
      simp [add_account_to_db, hrun] at hnone
  · intro e2 hsome
    rcases hrun : runStmts fails c (accountStmts nonces a) with ⟨c', e⟩
    have hcom := runStmts_committed fails (accountStmts nonces a) c
    rw [hrun] at hcom
    cases e with
    | none =>
      exfalso
      simp [add_account_to_db, hrun] at hsome
    | some err =>
      simp only [add_account_to_db, hrun]
      exact hcom
  · rw [folderRows_length]
    rfl
  · rw [hsess]; unfold randrange1_6; omega
  · rw [hsess]
    have : r.devRoll % 5 < 5 := Nat.mod_lt _ (by omega)
    unfold randrange1_6; omega

/-- Witness for C1: a no-failure run over a fresh connection. -/
theorem c1_add_account_atomic_witness :
    conn0.pending = conn0.committed ∧ conn0.aborted = false ∧
    (∀ e, (add_account_to_db (fun _ => false) nonces0
            (generate_account rand0) conn0).2 = some e →
      (add_account_to_db (fun _ => false) nonces0
        (generate_account rand0) conn0).1.committed = conn0.committed) :=
  ⟨rfl, rfl,
   (c1_add_account_atomic rand0 (fun _ => false) nonces0 conn0 rfl rfl).2.1⟩

lemma KeyRec.scrub_id (k : KeyRec) : k.scrub.id = k.id := by
  cases k <;> rfl

lemma KeyRec.scrub_public_b85 (k : KeyRec) : k.scrub.public_b85 = k.public_b85 := by
  cases k <;> rfl

lemma getD_map_default {α β : Type} (f : α → β) (d : α) :
    ∀ (l : List α) (n : Nat), (l.map f).getD n (f d) = f (l.getD n d) := by
  intro l
  induction l with
  | nil => intro n; rfl
  | cons h t ih =>
    intro n
    cases n with
    | zero => rfl
    | succ m => simp only [List.map_cons, List.getD_cons_succ]; exact ih m

lemma stringCells_cons (s : Stmt) (ss : List Stmt) :
    stringCells (s :: ss) = stmtStringCells s ++ stringCells ss := by
  simp [stringCells]

lemma stringCells_append (l1 l2 : List Stmt) :
    stringCells (l1 ++ l2) = stringCells l1 ++ stringCells l2 := by
  simp [stringCells]

lemma stringCells_folderRows (w : String) (nonces : Nat → Bytes) :
    ∀ (fm : List (String × String)) (i : Nat) (k k' : KeyRec), k.id = k'.id →
      stringCells ((folderRows k w nonces fm i).map Stmt.insertFolder) =
        stringCells ((folderRows k' w nonces fm i).map Stmt.insertFolder) := by
  intro fm
  induction fm with
  | nil => intro i k k' h; rfl
  | cons p rest ih =>
    intro i k k' h
    rw [folderRows, folderRows, List.map_cons, List.map_cons, stringCells_cons,
      stringCells_cons, ih (i + 1) k k' h]
    simp [stmtStringCells, h]

/-- C10: the persistence writer writes no secret material: every
string-valued cell it emits is unchanged when all private keys and all raw
symmetric keys of the account are erased (so no inserted string depends on
them); each sessions row carries exactly the device's public key in
base-85; and the private and symmetric keys do appear in the operator's
stdout dump, which is where they are emitted. -/
theorem c10_no_secret_material_persisted (nonces : Nat → Bytes) :
    (∀ a : Account,
      stringCells (accountStmts nonces (scrubSecrets a)) =
        stringCells (accountStmts nonces a))
    ∧ (∀ a : Account, stmtSessionRows (accountStmts nonces a) =
        a.devices.map (fun d =>
          { wid := a.wid, devid := d.id, device_key := d.key.public_b85 }))
    ∧ (∀ a : Account,
        ("Identity Private.b85", (a.keys.getD 0 defaultKeyRec).private_b85)
          ∈ dump_account a
        ∧ ("Contact Private.b85", (a.keys.getD 1 defaultKeyRec).private_b85)
          ∈ dump_account a
        ∧ ("First Device Private.b85", (a.keys.getD 2 defaultKeyRec).private_b85)
          ∈ dump_account a
        ∧ ("Broadcast.b85", (a.keys.getD 3 defaultKeyRec).key_b85)
          ∈ dump_account a
        ∧ ("System.b85", (a.keys.getD 4 defaultKeyRec).key_b85)
          ∈ dump_account a
        ∧ ("Folder Map.b85", (a.keys.getD 5 defaultKeyRec).key_b85)
          ∈ dump_account a
        ∧ ∀ i < a.devices.length,
            (String.append (String.append "Device #" (toString (i + 1)))
                " Private.b85",
              (a.devices.getD i { id := "", key := defaultKeyRec }).key.private_b85)
              ∈ dump_account a) := by
  refine ⟨?_, ?_, ?_⟩
  · intro a
    rw [accountStmts, accountStmts, stringCells_cons, stringCells_cons,
      stringCells_append, stringCells_append]
    have hmain : mainRow (scrubSecrets a) = mainRow a := rfl
    have hkey : (scrubSecrets a).keys.getD 5 defaultKeyRec =
        (a.keys.getD 5 defaultKeyRec).scrub := by
      have : (scrubSecrets a).keys = a.keys.map KeyRec.scrub := rfl
      rw [this]
      exact getD_map_default KeyRec.scrub defaultKeyRec a.keys 5
    have hfold : stringCells ((folderRows ((scrubSecrets a).keys.getD 5 defaultKeyRec)
          (scrubSecrets a).wid nonces (scrubSecrets a).folder_map 0).map
            Stmt.insertFolder) =
        stringCells ((folderRows (a.keys.getD 5 defaultKeyRec)
          a.wid nonces a.folder_map 0).map Stmt.insertFolder) := by
      rw [hkey]
      exact stringCells_folderRows a.wid nonces a.folder_map 0 _ _
        (KeyRec.scrub_id _)
    have hsess : sessionRows (scrubSecrets a) = sessionRows a := by
      simp [sessionRows, scrubSecrets, List.map_map, Function.comp_def,
        KeyRec.scrub_public_b85]
    rw [hmain, hfold, hsess]
  · intro a
    rw [stmtSessionRows_accountStmts]
    rfl
  · intro a
    refine ⟨by simp [dump_account], by simp [dump_account], by simp [dump_account],
      by simp [dump_account], by simp [dump_account], by simp [dump_account], ?_⟩
    intro i hi
    refine List.mem_append_right _ ?_
    rw [deviceDumpRows]
    refine List.mem_flatten.mpr
      ⟨_, List.mem_map_of_mem _ (List.mem_range.mpr hi), ?_⟩
    simp
